import Mathlib

/-!
Shallow embedding of the real-time voice-call core of the Joke_Pot
repository (the unnamed main App component, `src/unnamed/part_000`).

The React component keeps its session resources in mutable refs and its
UI data in React state; we collect all of them into one `AppState`
record and model every handler (`playSound`, `endCall`, the `onmessage`
callback of the live session, the microphone-acquisition phase of
`startCall`) as a pure function from `AppState` (plus the audio clock
and wall clock, which the browser supplies) to a new `AppState` together
with a list of externally visible `Action`s (Web Audio calls, tool-call
acknowledgements, resource releases).

Audio-clock times and volumes are modelled as rationals; decoded audio
chunks are represented by their duration.
-/

namespace JokePot

/-- Call lifecycle states, mirroring `type CallState` in the source. -/
inductive CallState where
  | idle
  | calling
  | active
  | ended
deriving DecidableEq, Repr

/-- Speaker tag of a committed transcript entry ('You' / 'AI'). -/
inductive Speaker where
  | you
  | ai
deriving DecidableEq, Repr

/-- An immutable committed transcript entry. -/
structure TranscriptionEntry where
  speaker : Speaker
  text : String
deriving DecidableEq, Repr

/-- UI theme; only relevant here because the turn-complete handler plays
the 'pop' chime only in the jokes theme. -/
inductive AppTheme where
  | jokes
  | horror
deriving DecidableEq, Repr

/-- A JSON-ish argument value, so that we can model the source's
dynamic-type checks (`typeof fc.args.volume === 'number'`,
`fc.args.loop === true`) faithfully. -/
inductive JVal where
  | num (q : ℚ)
  | str (s : String)
  | boolean (b : Bool)
  | null
deriving DecidableEq, Repr

/-- Arguments of an inbound tool call.  Per the declared tool schema,
`soundName` is a string when present; `loop` and `volume` are kept as
raw values because the handler checks their dynamic type. -/
structure FnArgs where
  soundName : Option String
  loop : Option JVal
  volume : Option JVal
deriving DecidableEq, Repr

/-- An inbound tool-call request (`fc` in the source). -/
structure FunctionCall where
  id : String
  name : String
  args : FnArgs
deriving DecidableEq, Repr

/-- A created output audio node (oscillator or buffer source); `sid` is
a model-level identity, `loops` models `source.loop`, `stopAt` a
scheduled `source.stop(t)`. -/
structure SourceNode where
  sid : Nat
  loops : Bool
  stopAt : Option ℚ
deriving DecidableEq, Repr

/-- Externally visible effects of the handlers: Web Audio node calls,
resource releases, and tool-call acknowledgements sent on the session. -/
inductive Action where
  | startOsc (sid : Nat) (t : ℚ)
  | stopOscAt (sid : Nat) (t : ℚ)
  | startSource (sid : Nat) (t : ℚ)
  | stopSourceAt (sid : Nat) (t : ℚ)
  | stopSource (sid : Nat)
  | sendAck (id : String) (name : String) (result : String)
  | ambientRamp (target : ℚ) (t : ℚ)
  | stopTracks
  | disconnectProcessor
  | masterDisconnect
  | closeInputCtx
  | closeOutputCtx
  | closeSession
deriving DecidableEq, Repr

/-- The whole mutable state of the App component: React state plus the
mutable refs.  Resource refs that the source only tests for null-ness
are modelled as `Bool` ("is the ref currently non-null"); note that
`endCall` closes the two audio contexts but never nulls their refs, so
the corresponding fields stay `true` after teardown, exactly as in the
source.  `pInput`/`pOutput` model the `partialInput`/`partialOutput`
React state. -/
structure AppState where
  callState : CallState
  micError : Option String
  transcriptions : List TranscriptionEntry
  isAiThinking : Bool
  currentInput : String
  currentOutput : String
  pInput : String
  pOutput : String
  theme : AppTheme
  sessionPromise : Bool
  inputCtx : Bool
  outputCtx : Bool
  masterGain : Bool
  stream : Bool
  scriptProcessor : Bool
  nextStartTime : ℚ
  outputSources : List Nat
  ambientSource : Option SourceNode
  ambientGain : Option Nat
  isEnding : Bool
  callStartTime : Option Nat
  callDuration : Nat
  nextId : Nat
deriving DecidableEq, Repr

/-- The five purely oscillator-based one-shot names of `playSound`'s
first branch. -/
def oscNames : List String := ["connect", "disconnect", "pop", "creak", "thump"]

/-- `playSound(type, loop)` from the source.  `now` is
`audioCtx.currentTime`.  Returns the new state and the emitted audio
actions.  Faithful points: the guard returns early when either the
output context or the master gain ref is null; a `loop` request first
stops and clears any existing ambient source; oscillator names schedule
`stop(now + 1)` and never set `sourceToStore`, so they are never
retained; buffer names set `sourceToStore`, whisper additionally
schedules `stop(now + 1)` (`oneShot`), and the final
`if (loop && sourceToStore)` marks the source looping and retains it as
the ambient source together with its gain node. -/
def playSound (s : AppState) (now : ℚ) (type : String) (loop : Bool) :
    AppState × List Action :=
  if s.outputCtx = false ∨ s.masterGain = false then (s, [])
  else
    let cleared :=
      match loop, s.ambientSource with
      | true, some amb =>
          ({ s with ambientSource := none, ambientGain := none },
           [Action.stopSource amb.sid])
      | _, _ => (s, ([] : List Action))
    let s1 := cleared.1
    let sid := s1.nextId
    let gid := s1.nextId + 1
    if type ∈ oscNames then
      ({ s1 with nextId := s1.nextId + 2 },
       cleared.2 ++ [Action.startOsc sid now, Action.stopOscAt sid (now + 1)])
    else
      let oneShot := type = "whisper"
      let node : SourceNode :=
        { sid := sid, loops := loop, stopAt := if oneShot then some (now + 1) else none }
      let acts := cleared.2 ++ [Action.startSource sid now]
        ++ (if oneShot then [Action.stopSourceAt sid (now + 1)] else [])
      if loop then
        ({ s1 with nextId := s1.nextId + 2, ambientSource := some node,
                   ambientGain := some gid }, acts)
      else
        ({ s1 with nextId := s1.nextId + 2 }, acts)

/-- The `if (ambientSourceRef.current)` block of `endCall`: stop the
ambient loop and clear both ambient refs. -/
def stopAmbientOnEnd (s : AppState) : AppState × List Action :=
  match s.ambientSource with
  | some amb =>
      ({ s with ambientSource := none, ambientGain := none },
       [Action.stopSource amb.sid])
  | none => (s, [])

/-- The `if (callStartTime)` block of `endCall`: record the elapsed
call duration in whole seconds (`wall` is `Date.now()` in ms). -/
def recordDuration (s : AppState) (wall : Nat) : AppState :=
  match s.callStartTime with
  | some t => { s with callDuration := (wall - t) / 1000 }
  | none => s

/-- `endCall` from the source (the unnamed main App file), guarded by
the single-shot `isEndingRef` lock.  `now` is the output context's
current time (for the disconnect chime), `wall` the wall clock in
milliseconds (for the call duration).  Release steps appear in source
order: disconnect chime, `ended` state, ambient stop, duration,
session close, microphone-track stop, processor disconnect, master
gain disconnect and null, both context closes, stopping and clearing
the live output sources, nulling the session ref.  (The master gain
ref ends up null whether or not it was non-null, so the final state
sets it to `false` unconditionally while the disconnect action is
emitted only when it was live, exactly as in the source.)  The
trailing 3-second `setTimeout` body is modelled separately as
`endedTimeout`. -/
def endCall (s : AppState) (now : ℚ) (wall : Nat) : AppState × List Action :=
  if s.isEnding then (s, [])
  else
    let s0 := { s with isEnding := true }
    let chime := playSound s0 now "disconnect" false
    let s1 := { chime.1 with callState := CallState.ended }
    let amb := stopAmbientOnEnd s1
    let s3 := recordDuration amb.1 wall
    let acts := chime.2 ++ amb.2
      ++ (if s3.sessionPromise then [Action.closeSession] else [])
      ++ (if s3.stream then [Action.stopTracks] else [])
      ++ (if s3.scriptProcessor then [Action.disconnectProcessor] else [])
      ++ (if s3.masterGain then [Action.masterDisconnect] else [])
      ++ (if s3.inputCtx then [Action.closeInputCtx] else [])
      ++ (if s3.outputCtx then [Action.closeOutputCtx] else [])
      ++ s3.outputSources.map Action.stopSource
    ({ s3 with masterGain := false, outputSources := [], sessionPromise := false },
     acts)

/-- Body of the 3-second `setTimeout` at the end of `endCall`: return to
idle, clear transcript/partial-buffer/thinking/start-time state and
release the teardown lock.  (The `currentInputRef`/`currentOutputRef`
accumulators are not touched there, exactly as in the source.) -/
def endedTimeout (s : AppState) : AppState :=
  { s with callState := CallState.idle, transcriptions := [], pInput := "",
           pOutput := "", isAiThinking := false, callStartTime := none,
           isEnding := false }

/-- JavaScript truthiness of the optional `soundName` string argument
(`fc.args.soundName` in the guard): present and non-empty. -/
def truthyStr : Option String → Bool
  | some s => s ≠ ""
  | none => false

/-- The numeric value of an argument, when `typeof v === 'number'`. -/
def jnum? : Option JVal → Option ℚ
  | some (JVal.num q) => some q
  | _ => none

/-- The volume clamp of the `setAmbianceVolume` handler:
`Math.max(0, Math.min(0.8, v))`. -/
def clampVolume (v : ℚ) : ℚ := max 0 (min (4 / 5) v)

/-- One inbound tool call (`fc`) as processed by the body of the
`for (const fc of message.toolCall.functionCalls)` loop.  The two `if`
statements are independent; each acknowledgement is sent via
`sessionPromiseRef.current?.then(...)`, hence only when the session
ref is non-null; the volume ramp additionally requires the ambient
gain ref and the output context to be non-null. -/
def handleFunctionCall (s : AppState) (now : ℚ) (fc : FunctionCall) :
    AppState × List Action :=
  let fst :=
    if fc.name = "playSoundEffect" ∧ truthyStr fc.args.soundName then
      let played := playSound s now (fc.args.soundName.getD "")
        (fc.args.loop = some (JVal.boolean true))
      (played.1, played.2 ++
        (if played.1.sessionPromise then
          [Action.sendAck fc.id fc.name "ok"] else []))
    else (s, ([] : List Action))
  let s1 := fst.1
  if fc.name = "setAmbianceVolume" ∧ (jnum? fc.args.volume).isSome then
    let ramp :=
      if s1.ambientGain.isSome ∧ s1.outputCtx then
        [Action.ambientRamp (clampVolume ((jnum? fc.args.volume).getD 0)) (now + 1 / 2)]
      else []
    (s1, fst.2 ++ ramp ++
      (if s1.sessionPromise then
        [Action.sendAck fc.id fc.name "volume adjusted"] else []))
  else fst

/-- One inbound `LiveServerMessage`, reduced to the facets the
`onmessage` callback reads.  A decoded audio chunk is represented by
its duration (`audioData = some duration` when
`serverContent.modelTurn.parts[0].inlineData.data` is present). -/
structure ServerMessage where
  inputTranscriptionText : Option String
  outputTranscriptionText : Option String
  toolCall : Option (List FunctionCall)
  interrupted : Bool
  turnComplete : Bool
  audioData : Option ℚ
deriving DecidableEq, Repr

/-- Step 1 of `onmessage`: append an inbound input-transcription delta
to the accumulator ref and mirror it into the partial-input state. -/
def stepInputTranscription (s : AppState) (m : ServerMessage) : AppState :=
  match m.inputTranscriptionText with
  | some t => { s with currentInput := s.currentInput ++ t,
                       pInput := s.currentInput ++ t }
  | none => s

/-- Step 2 of `onmessage`: same for the output transcription, also
clearing the thinking indicator. -/
def stepOutputTranscription (s : AppState) (m : ServerMessage) : AppState :=
  match m.outputTranscriptionText with
  | some t => { s with isAiThinking := false,
                       currentOutput := s.currentOutput ++ t,
                       pOutput := s.currentOutput ++ t }
  | none => s

/-- The body of the `for (const fc of message.toolCall.functionCalls)`
loop, one call after the other in list order. -/
def runFunctionCalls (s : AppState) (now : ℚ) :
    List FunctionCall → AppState × List Action
  | [] => (s, [])
  | fc :: rest =>
      let r := handleFunctionCall s now fc
      let r' := runFunctionCalls r.1 now rest
      (r'.1, r.2 ++ r'.2)

/-- Step 3 of `onmessage`: the `if (message.toolCall)` loop over the
inbound function calls. -/
def stepToolCalls (s : AppState) (now : ℚ) (m : ServerMessage) :
    AppState × List Action :=
  match m.toolCall with
  | some fcs => runFunctionCalls s now fcs
  | none => (s, [])

/-- Step 4 of `onmessage`: `serverContent.interrupted` stops every live
output source, clears the live-set and zeroes the next-start-time
cursor. -/
def stepInterrupted (s : AppState) (m : ServerMessage) : AppState × List Action :=
  if m.interrupted then
    ({ s with outputSources := [], nextStartTime := 0 },
     s.outputSources.map Action.stopSource)
  else (s, [])

/-- The `.trim()` of the source, modelled structurally (strip leading
and trailing whitespace): the library `String.trim` is defined by
well-founded recursion and does not reduce in the kernel, so the
embedding uses this equivalent computable form. -/
def jsTrim (s : String) : String :=
  String.mk ((((s.toList.dropWhile Char.isWhitespace).reverse.dropWhile
    Char.isWhitespace)).reverse)

/-- Step 5 of `onmessage`: `serverContent.turnComplete` plays the 'pop'
chime for a non-empty AI turn in the jokes theme, commits the non-empty
accumulators as transcript entries ('You' first, then 'AI'), raises the
thinking indicator after a user turn, and clears both accumulators and
both partial buffers. -/
def stepTurnComplete (s : AppState) (now : ℚ) (m : ServerMessage) :
    AppState × List Action :=
  if m.turnComplete then
    let fullInput := s.currentInput
    let fullOutput := s.currentOutput
    let popped :=
      if jsTrim fullOutput ≠ "" ∧ s.theme = AppTheme.jokes then
        playSound s now "pop" false
      else (s, [])
    let s1 := popped.1
    let entries :=
      (if jsTrim fullInput ≠ "" then [TranscriptionEntry.mk Speaker.you fullInput] else [])
      ++ (if jsTrim fullOutput ≠ "" then [TranscriptionEntry.mk Speaker.ai fullOutput] else [])
    ({ s1 with transcriptions := s1.transcriptions ++ entries,
               isAiThinking := if jsTrim fullInput ≠ "" then true else s1.isAiThinking,
               currentInput := "", currentOutput := "", pInput := "", pOutput := "" },
     popped.2)
  else (s, [])

/-- Step 6 of `onmessage`: an inbound audio chunk.  The cursor is first
raised to `max(cursor, audioContext.currentTime)`; then the decoded
buffer is wired up — `source.connect(masterGainRef.current!)` throws
when the master gain ref is null (as after teardown), in which case the
source is neither started nor added and the cursor is not advanced by
the chunk's duration, exactly as in the source where the exception
aborts the rest of the handler. -/
def stepAudio (s : AppState) (now : ℚ) (m : ServerMessage) :
    AppState × List Action :=
  match m.audioData with
  | some dur =>
      let s0 := { s with isAiThinking := false }
      let c := max s0.nextStartTime now
      if s0.masterGain then
        ({ s0 with nextStartTime := c + dur, nextId := s0.nextId + 1,
                   outputSources := s0.outputSources ++ [s0.nextId] },
         [Action.startSource s0.nextId c])
      else
        ({ s0 with nextStartTime := c }, [])
  | none => (s, [])

/-- The `onmessage` callback: the six facets of a message are processed
in source order (input transcription, output transcription, tool calls,
interruption, turn completion, audio chunk).  `now` models the output
audio context's current time while this message is handled.  Note the
callback consults neither `callState` nor the teardown lock. -/
def onmessage (s : AppState) (now : ℚ) (m : ServerMessage) :
    AppState × List Action :=
  let s1 := stepInputTranscription s m
  let s2 := stepOutputTranscription s1 m
  let r3 := stepToolCalls s2 now m
  let r4 := stepInterrupted r3.1 m
  let r5 := stepTurnComplete r4.1 now m
  let r6 := stepAudio r5.1 now m
  (r6.1, r3.2 ++ r4.2 ++ r5.2 ++ r6.2)

/-- Failure causes of `navigator.mediaDevices.getUserMedia`, as
distinguished by the `catch` block of `startCall`: a `DOMException`
with one of the recognized names, some other `DOMException`, or a
non-DOM error. -/
inductive MicFailure where
  | notAllowed
  | permissionDenied
  | notFound
  | notReadable
  | otherDom (name : String)
  | nonDom
deriving DecidableEq, Repr

/-- Outcome of the microphone request. -/
inductive MicResult where
  | granted
  | failure (e : MicFailure)
deriving DecidableEq, Repr

/-- The user-facing message chosen by `startCall`'s catch block for
each microphone failure cause. -/
def micErrorMessage : MicFailure → String
  | MicFailure.notAllowed =>
      "Microphone permission denied. Please allow microphone access in your browser\x27s site settings (often a lock icon in the address bar) and try again."
  | MicFailure.permissionDenied =>
      "Microphone permission denied. Please allow microphone access in your browser\x27s site settings (often a lock icon in the address bar) and try again."
  | MicFailure.notFound =>
      "No microphone was found on your device. Please connect a microphone and try again."
  | MicFailure.notReadable =>
      "Your microphone is currently in use by another application. Please close the other application and try again."
  | _ =>
      "Could not access the microphone. Please check your hardware and browser settings."

/-- The opening of `startCall` up to and including the microphone
request: clear the error, enter `calling`; on failure set the
cause-specific error and fall back to `idle`, returning before any of
the audio-context or channel setup runs; on success retain the stream
and proceed to create both contexts, the master gain and the live
session connection (`ai.live.connect`, modelled as setting the session
ref). -/
def startCallMicPhase (s : AppState) (r : MicResult) : AppState :=
  let s0 := { s with micError := none, callState := CallState.calling }
  match r with
  | MicResult.granted =>
      { s0 with stream := true, inputCtx := true, outputCtx := true,
                masterGain := true, sessionPromise := true }
  | MicResult.failure e =>
      { s0 with micError := some (micErrorMessage e), callState := CallState.idle }

/-- Repeated invocations of the teardown routine, each with its own
audio-clock and wall-clock reading, as fired by the independent
triggers (user hangup, remote close, transport error, promise
rejection); the actions of all invocations are concatenated. -/
def endCallSeq (s : AppState) : List (ℚ × Nat) → AppState × List Action
  | [] => (s, [])
  | p :: rest =>
      let r := endCall s p.1 p.2
      let r' := endCallSeq r.1 rest
      (r'.1, r.2 ++ r'.2)

/-- Does this action acknowledge the tool call with id `i`? -/
def isAckFor (i : String) : Action → Bool
  | Action.sendAck j _ _ => j = i
  | _ => false

/-- Is this action an ambient-gain volume ramp? -/
def isRamp : Action → Bool
  | Action.ambientRamp _ _ => true
  | _ => false

/-- Audio-node actions (the only kind `playSound` emits): starting or
stopping oscillators and buffer sources. -/
def isNodeAct : Action → Bool
  | Action.startOsc _ _ => true
  | Action.stopOscAt _ _ => true
  | Action.startSource _ _ => true
  | Action.stopSourceAt _ _ => true
  | Action.stopSource _ => true
  | _ => false

/-- A tool-call name the handler recognizes. -/
def recognizedName (fc : FunctionCall) : Bool :=
  fc.name = "playSoundEffect" ∨ fc.name = "setAmbianceVolume"

/-- Argument validity as the handler checks it: a truthy `soundName`
for `playSoundEffect`, a numeric `volume` for `setAmbianceVolume`. -/
def validArgs (fc : FunctionCall) : Bool :=
  (fc.name = "playSoundEffect" ∧ truthyStr fc.args.soundName) ∨
  (fc.name = "setAmbianceVolume" ∧ (jnum? fc.args.volume).isSome)

/-- An `AppState` as it stands in an established call: session open,
contexts and master gain live, no ambient source, empty transcript. -/
def activeState : AppState where
  callState := CallState.active
  micError := none
  transcriptions := []
  isAiThinking := false
  currentInput := ""
  currentOutput := ""
  pInput := ""
  pOutput := ""
  theme := AppTheme.horror
  sessionPromise := true
  inputCtx := true
  outputCtx := true
  masterGain := true
  stream := true
  scriptProcessor := true
  nextStartTime := 0
  outputSources := []
  ambientSource := none
  ambientGain := none
  isEnding := false
  callStartTime := some 1000
  callDuration := 0
  nextId := 0

/-! ### Basic lemmas about `playSound` -/

theorem playSound_nextStartTime (s : AppState) (now : ℚ) (ty : String) (l : Bool) :
    (playSound s now ty l).1.nextStartTime = s.nextStartTime := by
  unfold playSound
  cases l <;> cases hA : s.ambientSource <;> split_ifs <;> rfl

theorem playSound_masterGain (s : AppState) (now : ℚ) (ty : String) (l : Bool) :
    (playSound s now ty l).1.masterGain = s.masterGain := by
  unfold playSound
  cases l <;> cases hA : s.ambientSource <;> split_ifs <;> rfl

theorem playSound_sessionPromise (s : AppState) (now : ℚ) (ty : String) (l : Bool) :
    (playSound s now ty l).1.sessionPromise = s.sessionPromise := by
  unfold playSound
  cases l <;> cases hA : s.ambientSource <;> split_ifs <;> rfl

theorem playSound_outputCtx (s : AppState) (now : ℚ) (ty : String) (l : Bool) :
    (playSound s now ty l).1.outputCtx = s.outputCtx := by
  unfold playSound
  cases l <;> cases hA : s.ambientSource <;> split_ifs <;> rfl

theorem playSound_outputSources (s : AppState) (now : ℚ) (ty : String) (l : Bool) :
    (playSound s now ty l).1.outputSources = s.outputSources := by
  unfold playSound
  cases l <;> cases hA : s.ambientSource <;> split_ifs <;> rfl

theorem playSound_isEnding (s : AppState) (now : ℚ) (ty : String) (l : Bool) :
    (playSound s now ty l).1.isEnding = s.isEnding := by
  unfold playSound
  cases l <;> cases hA : s.ambientSource <;> split_ifs <;> rfl

theorem playSound_currentInput (s : AppState) (now : ℚ) (ty : String) (l : Bool) :
    (playSound s now ty l).1.currentInput = s.currentInput := by
  unfold playSound
  cases l <;> cases hA : s.ambientSource <;> split_ifs <;> rfl

theorem playSound_ambientSource_of_not_loop (s : AppState) (now : ℚ) (ty : String) :
    (playSound s now ty false).1.ambientSource = s.ambientSource := by
  unfold playSound
  cases hA : s.ambientSource <;> split_ifs <;> simp_all

theorem playSound_ambientGain_of_not_loop (s : AppState) (now : ℚ) (ty : String) :
    (playSound s now ty false).1.ambientGain = s.ambientGain := by
  unfold playSound
  cases hA : s.ambientSource <;> split_ifs <;> simp_all

theorem playSound_of_masterGain_false (s : AppState) (now : ℚ) (ty : String) (l : Bool)
    (h : s.masterGain = false) : playSound s now ty l = (s, []) := by
  unfold playSound
  simp [h]

theorem mem_ite_nil {α : Type} (p : Prop) [Decidable p] (l : List α) (a : α) :
    a ∈ (if p then l else []) ↔ p ∧ a ∈ l := by
  split_ifs with h <;> simp [h]

theorem playSound_acts_node (s : AppState) (now : ℚ) (ty : String) (l : Bool) :
    ∀ a ∈ (playSound s now ty l).2, isNodeAct a = true := by
  unfold playSound
  cases l <;> cases hA : s.ambientSource <;> split_ifs <;> intro a ha <;>
    simp only [List.mem_append, List.mem_cons, List.mem_singleton, List.not_mem_nil,
      mem_ite_nil, false_or, or_false] at ha
  all_goals try simp_all
  all_goals try (rcases ha with rfl | rfl <;> rfl)
  all_goals try (rcases ha with rfl | ⟨-, rfl⟩ <;> rfl)
  all_goals try (rcases ha with rfl | rfl | rfl <;> rfl)
  all_goals try (rcases ha with rfl | rfl | ⟨-, rfl⟩ <;> rfl)

theorem playSound_startSource_time (s : AppState) (now : ℚ) (ty : String) (l : Bool)
    (sid : Nat) (t : ℚ) (h : Action.startSource sid t ∈ (playSound s now ty l).2) :
    t = now := by
  unfold playSound at h
  cases l <;> cases hA : s.ambientSource <;> revert h <;>
    split_ifs <;> simp_all [List.mem_append]

/-! ### Node-action lists contain no acknowledgements or releases -/

theorem not_mem_of_node (l : List Action) (h : ∀ a ∈ l, isNodeAct a = true)
    (a : Action) (ha : isNodeAct a = false) : a ∉ l := by
  intro hm
  rw [h a hm] at ha
  exact Bool.noConfusion ha

theorem filter_ack_of_node (l : List Action) (h : ∀ a ∈ l, isNodeAct a = true)
    (i : String) : l.filter (isAckFor i) = [] := by
  induction l with
  | nil => rfl
  | cons a t ih =>
      have ha := h a (List.mem_cons_self a t)
      have ht := ih (fun b hb => h b (List.mem_cons_of_mem a hb))
      cases a <;> simp_all [isAckFor, isNodeAct]

theorem count_eq_zero_of_node (l : List Action) (h : ∀ a ∈ l, isNodeAct a = true)
    (a : Action) (ha : isNodeAct a = false) : l.count a = 0 :=
  List.count_eq_zero.mpr (not_mem_of_node l h a ha)

/-! ### Basic lemmas about `handleFunctionCall` -/

theorem hfc_nextStartTime (s : AppState) (now : ℚ) (fc : FunctionCall) :
    (handleFunctionCall s now fc).1.nextStartTime = s.nextStartTime := by
  unfold handleFunctionCall
  split_ifs <;> simp [playSound_nextStartTime]

theorem hfc_masterGain (s : AppState) (now : ℚ) (fc : FunctionCall) :
    (handleFunctionCall s now fc).1.masterGain = s.masterGain := by
  unfold handleFunctionCall
  split_ifs <;> simp [playSound_masterGain]

theorem hfc_sessionPromise (s : AppState) (now : ℚ) (fc : FunctionCall) :
    (handleFunctionCall s now fc).1.sessionPromise = s.sessionPromise := by
  unfold handleFunctionCall
  split_ifs <;> simp [playSound_sessionPromise]

theorem hfc_outputCtx (s : AppState) (now : ℚ) (fc : FunctionCall) :
    (handleFunctionCall s now fc).1.outputCtx = s.outputCtx := by
  unfold handleFunctionCall
  split_ifs <;> simp [playSound_outputCtx]

theorem hfc_outputSources (s : AppState) (now : ℚ) (fc : FunctionCall) :
    (handleFunctionCall s now fc).1.outputSources = s.outputSources := by
  unfold handleFunctionCall
  split_ifs <;> simp [playSound_outputSources]

theorem hfc_currentInput (s : AppState) (now : ℚ) (fc : FunctionCall) :
    (handleFunctionCall s now fc).1.currentInput = s.currentInput := by
  unfold handleFunctionCall
  split_ifs <;> simp [playSound_currentInput]

theorem hfc_inert (s : AppState) (now : ℚ) (fc : FunctionCall)
    (h1 : s.masterGain = false) (h2 : s.sessionPromise = false)
    (h3 : s.ambientGain = none) :
    handleFunctionCall s now fc = (s, []) := by
  unfold handleFunctionCall
  split_ifs <;> simp_all [playSound_of_masterGain_false]

theorem hfc_startSource_time (s : AppState) (now : ℚ) (fc : FunctionCall)
    (sid : Nat) (t : ℚ) (h : Action.startSource sid t ∈ (handleFunctionCall s now fc).2) :
    t = now := by
  unfold handleFunctionCall at h
  split_ifs at h <;> simp [mem_ite_nil] at h <;>
    exact playSound_startSource_time _ _ _ _ _ _ h

/-! ### Lemmas about the tool-call loop -/

theorem run_nextStartTime (now : ℚ) (fcs : List FunctionCall) :
    ∀ s : AppState, (runFunctionCalls s now fcs).1.nextStartTime = s.nextStartTime := by
  induction fcs with
  | nil => intro s; rfl
  | cons fc rest ih =>
      intro s
      simp only [runFunctionCalls]
      rw [ih, hfc_nextStartTime]

theorem run_currentInput (now : ℚ) (fcs : List FunctionCall) :
    ∀ s : AppState, (runFunctionCalls s now fcs).1.currentInput = s.currentInput := by
  induction fcs with
  | nil => intro s; rfl
  | cons fc rest ih =>
      intro s
      simp only [runFunctionCalls]
      rw [ih, hfc_currentInput]

theorem run_inert (now : ℚ) (fcs : List FunctionCall) :
    ∀ s : AppState, s.masterGain = false → s.sessionPromise = false →
      s.ambientGain = none → runFunctionCalls s now fcs = (s, []) := by
  induction fcs with
  | nil => intro s _ _ _; rfl
  | cons fc rest ih =>
      intro s h1 h2 h3
      simp only [runFunctionCalls]
      rw [hfc_inert s now fc h1 h2 h3]
      simp [ih s h1 h2 h3]

theorem run_startSource_time (now : ℚ) (fcs : List FunctionCall) :
    ∀ (s : AppState) (sid : Nat) (t : ℚ),
      Action.startSource sid t ∈ (runFunctionCalls s now fcs).2 → t = now := by
  induction fcs with
  | nil =>
      intro s sid t h
      simp [runFunctionCalls] at h
  | cons fc rest ih =>
      intro s sid t h
      simp only [runFunctionCalls, List.mem_append] at h
      rcases h with h | h
      · exact hfc_startSource_time _ _ _ _ _ h
      · exact ih _ _ _ h

/-! ### Per-step lemmas for `onmessage` -/

theorem stepInput_nextStartTime (s : AppState) (m : ServerMessage) :
    (stepInputTranscription s m).nextStartTime = s.nextStartTime := by
  cases h : m.inputTranscriptionText <;> simp [stepInputTranscription, h]

theorem stepInput_currentInput (s : AppState) (m : ServerMessage) :
    (stepInputTranscription s m).currentInput
      = s.currentInput ++ m.inputTranscriptionText.getD "" := by
  cases h : m.inputTranscriptionText <;> simp [stepInputTranscription, h]

theorem stepInput_inert (s : AppState) (m : ServerMessage) :
    (stepInputTranscription s m).masterGain = s.masterGain ∧
    (stepInputTranscription s m).sessionPromise = s.sessionPromise ∧
    (stepInputTranscription s m).ambientGain = s.ambientGain ∧
    (stepInputTranscription s m).outputSources = s.outputSources := by
  cases h : m.inputTranscriptionText <;> simp [stepInputTranscription, h]

theorem stepOutput_nextStartTime (s : AppState) (m : ServerMessage) :
    (stepOutputTranscription s m).nextStartTime = s.nextStartTime := by
  cases h : m.outputTranscriptionText <;> simp [stepOutputTranscription, h]

theorem stepOutput_currentInput (s : AppState) (m : ServerMessage) :
    (stepOutputTranscription s m).currentInput = s.currentInput := by
  cases h : m.outputTranscriptionText <;> simp [stepOutputTranscription, h]

theorem stepOutput_inert (s : AppState) (m : ServerMessage) :
    (stepOutputTranscription s m).masterGain = s.masterGain ∧
    (stepOutputTranscription s m).sessionPromise = s.sessionPromise ∧
    (stepOutputTranscription s m).ambientGain = s.ambientGain ∧
    (stepOutputTranscription s m).outputSources = s.outputSources := by
  cases h : m.outputTranscriptionText <;> simp [stepOutputTranscription, h]

theorem stepToolCalls_nextStartTime (s : AppState) (now : ℚ) (m : ServerMessage) :
    (stepToolCalls s now m).1.nextStartTime = s.nextStartTime := by
  cases h : m.toolCall <;> simp [stepToolCalls, h, run_nextStartTime]

theorem stepToolCalls_currentInput (s : AppState) (now : ℚ) (m : ServerMessage) :
    (stepToolCalls s now m).1.currentInput = s.currentInput := by
  cases h : m.toolCall <;> simp [stepToolCalls, h, run_currentInput]

theorem stepToolCalls_inert (s : AppState) (now : ℚ) (m : ServerMessage)
    (h1 : s.masterGain = false) (h2 : s.sessionPromise = false)
    (h3 : s.ambientGain = none) : stepToolCalls s now m = (s, []) := by
  cases h : m.toolCall <;> simp [stepToolCalls, h, run_inert now _ s h1 h2 h3]

theorem stepToolCalls_startSource_time (s : AppState) (now : ℚ) (m : ServerMessage)
    (sid : Nat) (t : ℚ) (h : Action.startSource sid t ∈ (stepToolCalls s now m).2) :
    t = now := by
  unfold stepToolCalls at h
  revert h
  cases hT : m.toolCall <;> intro h
  · simp at h
  · exact run_startSource_time now _ s sid t h

theorem stepInterrupted_not (s : AppState) (m : ServerMessage)
    (h : m.interrupted = false) : stepInterrupted s m = (s, []) := by
  simp [stepInterrupted, h]

theorem stepInterrupted_cursor_zero (s : AppState) (m : ServerMessage)
    (h : m.interrupted = true) : (stepInterrupted s m).1.nextStartTime = 0 := by
  simp [stepInterrupted, h]

theorem stepInterrupted_currentInput (s : AppState) (m : ServerMessage) :
    (stepInterrupted s m).1.currentInput = s.currentInput := by
  unfold stepInterrupted
  split_ifs <;> rfl

theorem stepInterrupted_inert (s : AppState) (m : ServerMessage)
    (h1 : s.masterGain = false) (h2 : s.sessionPromise = false)
    (h3 : s.ambientGain = none) (h4 : s.outputSources = []) :
    (stepInterrupted s m).1.masterGain = false ∧
    (stepInterrupted s m).1.sessionPromise = false ∧
    (stepInterrupted s m).1.ambientGain = none ∧
    (stepInterrupted s m).1.outputSources = [] ∧
    (stepInterrupted s m).2 = [] := by
  unfold stepInterrupted
  split_ifs <;> simp_all

theorem stepInterrupted_no_startSource (s : AppState) (m : ServerMessage)
    (sid : Nat) (t : ℚ) : Action.startSource sid t ∉ (stepInterrupted s m).2 := by
  unfold stepInterrupted
  split_ifs <;> simp [List.mem_map]

theorem stepTurnComplete_nextStartTime (s : AppState) (now : ℚ) (m : ServerMessage) :
    (stepTurnComplete s now m).1.nextStartTime = s.nextStartTime := by
  unfold stepTurnComplete
  split_ifs
  · dsimp only
    split_ifs <;> simp [playSound_nextStartTime]
  · rfl

theorem stepTurnComplete_not (s : AppState) (now : ℚ) (m : ServerMessage)
    (h : m.turnComplete = false) : stepTurnComplete s now m = (s, []) := by
  simp [stepTurnComplete, h]

theorem stepTurnComplete_inert (s : AppState) (now : ℚ) (m : ServerMessage)
    (h1 : s.masterGain = false) (h2 : s.sessionPromise = false)
    (h3 : s.ambientGain = none) (h4 : s.outputSources = []) :
    (stepTurnComplete s now m).1.masterGain = false ∧
    (stepTurnComplete s now m).1.sessionPromise = false ∧
    (stepTurnComplete s now m).1.ambientGain = none ∧
    (stepTurnComplete s now m).1.outputSources = [] ∧
    (stepTurnComplete s now m).2 = [] := by
  unfold stepTurnComplete
  split_ifs <;>
    simp_all [playSound_of_masterGain_false]

theorem stepTurnComplete_startSource_time (s : AppState) (now : ℚ) (m : ServerMessage)
    (sid : Nat) (t : ℚ) (h : Action.startSource sid t ∈ (stepTurnComplete s now m).2) :
    t = now := by
  unfold stepTurnComplete at h
  split_ifs at h
  · dsimp only at h
    split_ifs at h
    · exact playSound_startSource_time _ _ _ _ _ _ h
    · simp at h
  · simp at h

theorem stepAudio_none (s : AppState) (now : ℚ) (m : ServerMessage)
    (h : m.audioData = none) : stepAudio s now m = (s, []) := by
  simp [stepAudio, h]

theorem stepAudio_cursor_ge (s : AppState) (now : ℚ) (m : ServerMessage)
    (hdur : ∀ d, m.audioData = some d → 0 ≤ d) :
    s.nextStartTime ≤ (stepAudio s now m).1.nextStartTime := by
  cases h : m.audioData with
  | none => simp [stepAudio, h]
  | some d =>
      have hd := hdur d h
      have h1 : s.nextStartTime ≤ max s.nextStartTime now := le_max_left _ _
      simp only [stepAudio, h]
      split_ifs <;> (try simp) <;> linarith

theorem stepAudio_inert (s : AppState) (now : ℚ) (m : ServerMessage)
    (h1 : s.masterGain = false) :
    (stepAudio s now m).1.masterGain = false ∧ (stepAudio s now m).2 = [] := by
  cases h : m.audioData <;> simp [stepAudio, h, h1]

theorem stepAudio_currentInput (s : AppState) (now : ℚ) (m : ServerMessage) :
    (stepAudio s now m).1.currentInput = s.currentInput := by
  cases h : m.audioData <;> simp only [stepAudio, h] <;> (try split_ifs) <;> rfl

theorem stepAudio_startSource_ge (s : AppState) (now : ℚ) (m : ServerMessage)
    (sid : Nat) (t : ℚ) (h : Action.startSource sid t ∈ (stepAudio s now m).2) :
    now ≤ t := by
  unfold stepAudio at h
  revert h
  cases hA : m.audioData <;> intro h
  · simp at h
  · dsimp only at h
    revert h
    split_ifs <;> intro h <;> simp at h
    rcases h with ⟨-, rfl⟩
    exact le_max_right _ _

/-! ### Composite lemmas about `onmessage` -/

theorem onmessage_cursor_mono (s : AppState) (now : ℚ) (m : ServerMessage)
    (hint : m.interrupted = false)
    (hdur : ∀ d, m.audioData = some d → 0 ≤ d) :
    s.nextStartTime ≤ (onmessage s now m).1.nextStartTime := by
  unfold onmessage
  dsimp only
  refine le_trans (le_of_eq ?_) (stepAudio_cursor_ge _ now m hdur)
  simp [stepTurnComplete_nextStartTime, stepInterrupted_not _ _ hint,
    stepToolCalls_nextStartTime, stepOutput_nextStartTime, stepInput_nextStartTime]

theorem onmessage_cursor_interrupt (s : AppState) (now : ℚ) (m : ServerMessage)
    (hint : m.interrupted = true) (haud : m.audioData = none) :
    (onmessage s now m).1.nextStartTime = 0 := by
  unfold onmessage
  dsimp only
  simp [stepAudio_none _ now m haud, stepTurnComplete_nextStartTime,
    stepInterrupted_cursor_zero _ _ hint]

theorem onmessage_startSource_ge (s : AppState) (now : ℚ) (m : ServerMessage)
    (sid : Nat) (t : ℚ) (h : Action.startSource sid t ∈ (onmessage s now m).2) :
    now ≤ t := by
  unfold onmessage at h
  dsimp only at h
  simp only [List.mem_append] at h
  rcases h with ((h | h) | h) | h
  · exact le_of_eq (stepToolCalls_startSource_time _ now m sid t h).symm
  · exact absurd h (stepInterrupted_no_startSource _ _ _ _)
  · exact le_of_eq (stepTurnComplete_startSource_time _ now m sid t h).symm
  · exact stepAudio_startSource_ge _ now m sid t h

theorem onmessage_inert_acts (s : AppState) (now : ℚ) (m : ServerMessage)
    (h1 : s.masterGain = false) (h2 : s.sessionPromise = false)
    (h3 : s.ambientGain = none) (h4 : s.outputSources = []) :
    (onmessage s now m).2 = [] := by
  have hA := stepInput_inert s m
  have hB := stepOutput_inert (stepInputTranscription s m) m
  have e1 : (stepOutputTranscription (stepInputTranscription s m) m).masterGain = false := by
    rw [hB.1, hA.1]; exact h1
  have e2 : (stepOutputTranscription (stepInputTranscription s m) m).sessionPromise = false := by
    rw [hB.2.1, hA.2.1]; exact h2
  have e3 : (stepOutputTranscription (stepInputTranscription s m) m).ambientGain = none := by
    rw [hB.2.2.1, hA.2.2.1]; exact h3
  have e4 : (stepOutputTranscription (stepInputTranscription s m) m).outputSources = [] := by
    rw [hB.2.2.2, hA.2.2.2]; exact h4
  have hTC := stepToolCalls_inert _ now m e1 e2 e3
  have hI := stepInterrupted_inert
    (stepOutputTranscription (stepInputTranscription s m) m) m e1 e2 e3 e4
  have hT := stepTurnComplete_inert
    (stepInterrupted (stepOutputTranscription (stepInputTranscription s m) m) m).1 now m
    hI.1 hI.2.1 hI.2.2.1 hI.2.2.2.1
  have hAu := stepAudio_inert
    (stepTurnComplete
      (stepInterrupted (stepOutputTranscription (stepInputTranscription s m) m) m).1
      now m).1 now m hT.1
  unfold onmessage
  dsimp only
  rw [hTC]
  dsimp only
  rw [hI.2.2.2.2, hT.2.2.2.2, hAu.2]
  rfl

theorem onmessage_currentInput_no_turn (s : AppState) (now : ℚ) (m : ServerMessage)
    (hTC : m.turnComplete = false) :
    (onmessage s now m).1.currentInput
      = s.currentInput ++ m.inputTranscriptionText.getD "" := by
  unfold onmessage
  dsimp only
  simp [stepAudio_currentInput, stepTurnComplete_not _ now m hTC,
    stepInterrupted_currentInput, stepToolCalls_currentInput, stepOutput_currentInput,
    stepInput_currentInput]

/-! ### Lemmas about `endCall` -/

theorem stopAmbient_isEnding (s : AppState) :
    (stopAmbientOnEnd s).1.isEnding = s.isEnding := by
  cases h : s.ambientSource <;> simp [stopAmbientOnEnd, h]

theorem stopAmbient_callState (s : AppState) :
    (stopAmbientOnEnd s).1.callState = s.callState := by
  cases h : s.ambientSource <;> simp [stopAmbientOnEnd, h]

theorem stopAmbient_ambientGain_some (s : AppState) (h : s.ambientSource.isSome) :
    (stopAmbientOnEnd s).1.ambientGain = none := by
  cases hs : s.ambientSource <;> simp_all [stopAmbientOnEnd]

theorem stopAmbient_ambientGain_none (s : AppState) (h : s.ambientSource = none) :
    (stopAmbientOnEnd s).1.ambientGain = s.ambientGain := by
  simp [stopAmbientOnEnd, h]

theorem stopAmbient_acts_node (s : AppState) :
    ∀ a ∈ (stopAmbientOnEnd s).2, isNodeAct a = true := by
  cases h : s.ambientSource <;> simp [stopAmbientOnEnd, h, isNodeAct]

theorem recordDuration_isEnding (s : AppState) (wall : Nat) :
    (recordDuration s wall).isEnding = s.isEnding := by
  cases h : s.callStartTime <;> simp [recordDuration, h]

theorem recordDuration_callState (s : AppState) (wall : Nat) :
    (recordDuration s wall).callState = s.callState := by
  cases h : s.callStartTime <;> simp [recordDuration, h]

theorem recordDuration_ambientGain (s : AppState) (wall : Nat) :
    (recordDuration s wall).ambientGain = s.ambientGain := by
  cases h : s.callStartTime <;> simp [recordDuration, h]

theorem recordDuration_currentInput (s : AppState) (wall : Nat) :
    (recordDuration s wall).currentInput = s.currentInput := by
  cases h : s.callStartTime <;> simp [recordDuration, h]

theorem map_stopSource_node (l : List Nat) :
    ∀ a ∈ l.map Action.stopSource, isNodeAct a = true := by
  intro a ha
  rcases List.mem_map.mp ha with ⟨x, -, rfl⟩
  rfl

theorem endCall_locked (s : AppState) (now : ℚ) (wall : Nat) (h : s.isEnding = true) :
    endCall s now wall = (s, []) := by
  unfold endCall
  simp [h]

theorem endCall_isEnding (s : AppState) (now : ℚ) (wall : Nat) :
    (endCall s now wall).1.isEnding = true := by
  unfold endCall
  split_ifs with h
  · exact h
  · dsimp only
    simp [recordDuration_isEnding, stopAmbient_isEnding, playSound_isEnding]

theorem endCall_post (s : AppState) (now : ℚ) (wall : Nat) (h : s.isEnding = false)
    (hcouple : s.ambientSource = none → s.ambientGain = none) :
    (endCall s now wall).1.callState = CallState.ended ∧
    (endCall s now wall).1.masterGain = false ∧
    (endCall s now wall).1.sessionPromise = false ∧
    (endCall s now wall).1.ambientGain = none ∧
    (endCall s now wall).1.outputSources = [] := by
  unfold endCall
  rw [if_neg (by simp [h])]
  dsimp only
  refine ⟨?_, rfl, rfl, ?_, rfl⟩
  · simp [recordDuration_callState, stopAmbient_callState]
  · cases hsa : s.ambientSource with
    | none =>
        simp [recordDuration_ambientGain, stopAmbient_ambientGain_none,
          playSound_ambientSource_of_not_loop, playSound_ambientGain_of_not_loop, hsa,
          hcouple hsa]
    | some a =>
        simp [recordDuration_ambientGain, stopAmbient_ambientGain_some,
          playSound_ambientSource_of_not_loop, hsa]

theorem count_ite_self (c : Prop) [Decidable c] (x : Action) :
    List.count x (if c then [x] else []) ≤ 1 := by
  split_ifs <;> simp

theorem count_ite_ne (c : Prop) [Decidable c] (x y : Action) (h : x ≠ y) :
    List.count y (if c then [x] else []) = 0 := by
  split_ifs <;> simp [List.count_eq_zero]
  intro he
  exact h he.symm

theorem endCall_count_stopTracks (s : AppState) (now : ℚ) (wall : Nat) :
    (endCall s now wall).2.count Action.stopTracks ≤ 1 := by
  unfold endCall
  split_ifs with h
  · simp
  · dsimp only
    simp only [List.count_append]
    rw [count_eq_zero_of_node _ (playSound_acts_node _ now "disconnect" false)
          Action.stopTracks rfl,
        count_eq_zero_of_node _ (stopAmbient_acts_node _) Action.stopTracks rfl,
        count_eq_zero_of_node _ (map_stopSource_node _) Action.stopTracks rfl,
        count_ite_ne _ Action.closeSession Action.stopTracks (by decide),
        count_ite_ne _ Action.disconnectProcessor Action.stopTracks (by decide),
        count_ite_ne _ Action.masterDisconnect Action.stopTracks (by decide),
        count_ite_ne _ Action.closeInputCtx Action.stopTracks (by decide),
        count_ite_ne _ Action.closeOutputCtx Action.stopTracks (by decide)]
    simpa using count_ite_self _ Action.stopTracks

theorem endCall_count_closeInputCtx (s : AppState) (now : ℚ) (wall : Nat) :
    (endCall s now wall).2.count Action.closeInputCtx ≤ 1 := by
  unfold endCall
  split_ifs with h
  · simp
  · dsimp only
    simp only [List.count_append]
    rw [count_eq_zero_of_node _ (playSound_acts_node _ now "disconnect" false)
          Action.closeInputCtx rfl,
        count_eq_zero_of_node _ (stopAmbient_acts_node _) Action.closeInputCtx rfl,
        count_eq_zero_of_node _ (map_stopSource_node _) Action.closeInputCtx rfl,
        count_ite_ne _ Action.closeSession Action.closeInputCtx (by decide),
        count_ite_ne _ Action.stopTracks Action.closeInputCtx (by decide),
        count_ite_ne _ Action.disconnectProcessor Action.closeInputCtx (by decide),
        count_ite_ne _ Action.masterDisconnect Action.closeInputCtx (by decide),
        count_ite_ne _ Action.closeOutputCtx Action.closeInputCtx (by decide)]
    simpa using count_ite_self _ Action.closeInputCtx

theorem endCall_count_closeOutputCtx (s : AppState) (now : ℚ) (wall : Nat) :
    (endCall s now wall).2.count Action.closeOutputCtx ≤ 1 := by
  unfold endCall
  split_ifs with h
  · simp
  · dsimp only
    simp only [List.count_append]
    rw [count_eq_zero_of_node _ (playSound_acts_node _ now "disconnect" false)
          Action.closeOutputCtx rfl,
        count_eq_zero_of_node _ (stopAmbient_acts_node _) Action.closeOutputCtx rfl,
        count_eq_zero_of_node _ (map_stopSource_node _) Action.closeOutputCtx rfl,
        count_ite_ne _ Action.closeSession Action.closeOutputCtx (by decide),
        count_ite_ne _ Action.stopTracks Action.closeOutputCtx (by decide),
        count_ite_ne _ Action.disconnectProcessor Action.closeOutputCtx (by decide),
        count_ite_ne _ Action.masterDisconnect Action.closeOutputCtx (by decide),
        count_ite_ne _ Action.closeInputCtx Action.closeOutputCtx (by decide)]
    simpa using count_ite_self _ Action.closeOutputCtx

theorem endCallSeq_locked (ps : List (ℚ × Nat)) :
    ∀ s : AppState, s.isEnding = true → endCallSeq s ps = (s, []) := by
  induction ps with
  | nil => intro s _; rfl
  | cons p rest ih =>
      intro s h
      simp [endCallSeq, endCall_locked s p.1 p.2 h, ih s h]

/-- The volume ramp emitted by a well-formed `setAmbianceVolume` call
while an ambient gain node is live: exactly one, targeting the clamped
volume, half a second ahead. -/
theorem hfc_ramp (s : AppState) (now : ℚ) (fc : FunctionCall) (v : ℚ)
    (hname : fc.name = "setAmbianceVolume")
    (hvol : fc.args.volume = some (JVal.num v))
    (hg : s.ambientGain.isSome = true) (hctx : s.outputCtx = true) :
    (handleFunctionCall s now fc).2.filter isRamp
      = [Action.ambientRamp (clampVolume v) (now + 1 / 2)] := by
  unfold handleFunctionCall
  have hne : ¬(fc.name = "playSoundEffect" ∧ truthyStr fc.args.soundName = true) := by
    intro hc
    rw [hname] at hc
    exact absurd hc.1 (by decide)
  have hsome : (jnum? fc.args.volume).isSome = true := by rw [hvol]; rfl
  rw [if_neg hne, if_pos ⟨hname, hsome⟩]
  dsimp only
  rw [if_pos ⟨hg, hctx⟩, hvol]
  split_ifs <;> simp [isRamp, jnum?]

/-! ### Claim theorems -/

/-- Claim C1: for every number N > 1 of invocations of the teardown
routine `endCall` (fired by any combination of user hangup, remote
close, transport error, or connection-promise rejection), the whole
sequence of invocations has exactly the effect and the actions of the
first invocation — the single-shot `isEndingRef` lock makes every later
caller return immediately — and the microphone-track stop and each
audio-context close occur at most once in the emitted actions. -/
theorem c1_teardown_idempotent (s : AppState) (p : ℚ × Nat) (rest : List (ℚ × Nat)) :
    endCallSeq s (p :: rest) = endCall s p.1 p.2 ∧
    (endCallSeq s (p :: rest)).2.count Action.stopTracks ≤ 1 ∧
    (endCallSeq s (p :: rest)).2.count Action.closeInputCtx ≤ 1 ∧
    (endCallSeq s (p :: rest)).2.count Action.closeOutputCtx ≤ 1 := by
  have hq : endCallSeq s (p :: rest) = endCall s p.1 p.2 := by
    simp [endCallSeq, endCallSeq_locked rest _ (endCall_isEnding s p.1 p.2)]
  refine ⟨hq, ?_, ?_, ?_⟩ <;> rw [hq]
  · exact endCall_count_stopTracks s p.1 p.2
  · exact endCall_count_closeInputCtx s p.1 p.2
  · exact endCall_count_closeOutputCtx s p.1 p.2

/-- Claim C2 counterexample: a recognized `playSoundEffect` request with
`soundName` absent, and a recognized `setAmbianceVolume` request with a
non-numeric `volume`, each produce no outbound action at all — in
particular no acknowledgement — refuting "exactly one acknowledgement
regardless of argument validity". -/
theorem c2_counterexample :
    (handleFunctionCall activeState 1
      { id := "7", name := "playSoundEffect",
        args := { soundName := none, loop := none, volume := none } }).2 = [] ∧
    (handleFunctionCall activeState 1
      { id := "8", name := "setAmbianceVolume",
        args := { soundName := none, loop := none,
                  volume := some (JVal.str "loud") } }).2 = [] := by
  exact ⟨by decide, by decide⟩

/-- Claim C2 (amended): while the session ref is set, a tool call with a
recognized name and VALID arguments (truthy `soundName` for
`playSoundEffect`, numeric `volume` for `setAmbianceVolume`) is answered
by exactly one acknowledgement with matching id; a recognized call with
invalid arguments is dropped without acknowledgement. -/
theorem c2_ack_iff_valid (s : AppState) (now : ℚ) (fc : FunctionCall)
    (hsess : s.sessionPromise = true) :
    (validArgs fc = true →
      ((handleFunctionCall s now fc).2.filter (isAckFor fc.id)).length = 1) ∧
    (recognizedName fc = true → validArgs fc = false →
      ((handleFunctionCall s now fc).2.filter (isAckFor fc.id)).length = 0) := by
  constructor
  · intro hv
    simp only [validArgs, decide_eq_true_eq] at hv
    unfold handleFunctionCall
    rcases hv with ⟨hn, hs⟩ | ⟨hn, hs⟩
    · have hne : ¬(fc.name = "setAmbianceVolume" ∧ (jnum? fc.args.volume).isSome = true) := by
        intro hc
        rw [hn] at hc
        exact absurd hc.1 (by decide)
      rw [if_neg hne, if_pos ⟨hn, hs⟩]
      dsimp only
      rw [playSound_sessionPromise, hsess]
      rw [if_pos rfl, List.filter_append,
        filter_ack_of_node _ (playSound_acts_node _ _ _ _) _]
      simp [isAckFor]
    · have hne : ¬(fc.name = "playSoundEffect" ∧ truthyStr fc.args.soundName = true) := by
        intro hc
        rw [hn] at hc
        exact absurd hc.1 (by decide)
      rw [if_pos ⟨hn, hs⟩, if_neg hne]
      dsimp only
      rw [hsess, if_pos rfl]
      split_ifs <;> simp [isAckFor]
  · intro hr hv
    simp only [validArgs, decide_eq_false_iff_not] at hv
    push_neg at hv
    simp only [recognizedName, decide_eq_true_eq] at hr
    unfold handleFunctionCall
    rcases hr with hn | hn
    · have ht : ¬(truthyStr fc.args.soundName = true) := fun hc => hv.1 hn hc
      have hne : ¬(fc.name = "setAmbianceVolume" ∧ (jnum? fc.args.volume).isSome = true) := by
        intro hc
        rw [hn] at hc
        exact absurd hc.1 (by decide)
      rw [if_neg hne, if_neg (fun hc => ht hc.2)]
      rfl
    · have ht : ¬((jnum? fc.args.volume).isSome = true) := fun hc => hv.2 hn hc
      have hne : ¬(fc.name = "playSoundEffect" ∧ truthyStr fc.args.soundName = true) := by
        intro hc
        rw [hn] at hc
        exact absurd hc.1 (by decide)
      rw [if_neg (fun hc => ht hc.2), if_neg hne]
      rfl

/-- Witness for C2 (amended): a valid `playSoundEffect('creak')` request
in an active session receives exactly one matching acknowledgement. -/
theorem c2_ack_iff_valid_witness :
    ((handleFunctionCall activeState 1
      { id := "9", name := "playSoundEffect",
        args := { soundName := some "creak", loop := none,
                  volume := none } }).2.filter (isAckFor "9")).length = 1 :=
  (c2_ack_iff_valid activeState 1
    { id := "9", name := "playSoundEffect",
      args := { soundName := some "creak", loop := none, volume := none } }
    rfl).1 (by decide)

/-- Claim C3 counterexample: an interruption arriving while the synthesis
clock reads 5 and the cursor reads 10 leaves the cursor at 0, not at the
clock's current time 5 — refuting "after an interruption the cursor
equals now". -/
theorem c3_counterexample :
    (onmessage { activeState with nextStartTime := 10 } 5
        { inputTranscriptionText := none, outputTranscriptionText := none,
          toolCall := none, interrupted := true, turnComplete := false,
          audioData := none }).1.nextStartTime = 0 ∧ (0 : ℚ) ≠ 5 := by
  constructor
  · rfl
  · decide

/-- Claim C3 (amended): for every inbound message whose audio chunk (if
any) has non-negative duration, the next-start-time cursor is
non-decreasing when the message carries no interruption; a message that
carries an interruption (and no audio chunk) resets the cursor to 0 —
it is only raised back to at least "now" when the next chunk is
scheduled. -/
theorem c3_cursor_monotone (s : AppState) (now : ℚ) (m : ServerMessage)
    (hdur : ∀ d, m.audioData = some d → 0 ≤ d) :
    (m.interrupted = false → s.nextStartTime ≤ (onmessage s now m).1.nextStartTime) ∧
    (m.interrupted = true → m.audioData = none →
      (onmessage s now m).1.nextStartTime = 0) :=
  ⟨fun h => onmessage_cursor_mono s now m h hdur,
   fun h h' => onmessage_cursor_interrupt s now m h h'⟩

/-- Witness for C3 (amended): an audio chunk of duration 2 arriving at
clock time 3 does not move the cursor backwards. -/
theorem c3_cursor_monotone_witness :
    activeState.nextStartTime ≤ (onmessage activeState 3
      { inputTranscriptionText := none, outputTranscriptionText := none,
        toolCall := none, interrupted := false, turnComplete := false,
        audioData := some 2 }).1.nextStartTime :=
  (c3_cursor_monotone activeState 3
    { inputTranscriptionText := none, outputTranscriptionText := none,
      toolCall := none, interrupted := false, turnComplete := false,
      audioData := some 2 }
    (fun d hd => by
      simp only [Option.some.injEq] at hd
      rw [← hd]
      decide)).1 rfl

/-- Claim C4 counterexample: after teardown has entered `ended`, a
late-arriving turn-complete message is NOT ignored — it commits the
pending input accumulator "hi" as a new transcript entry (the
`onmessage` callback never consults the call state). -/
theorem c4_counterexample :
    (endCall { activeState with currentInput := "hi" } 1 4000).1.callState
        = CallState.ended ∧
    (endCall { activeState with currentInput := "hi" } 1 4000).1.transcriptions = [] ∧
    (onmessage (endCall { activeState with currentInput := "hi" } 1 4000).1 2
        { inputTranscriptionText := none, outputTranscriptionText := none,
          toolCall := none, interrupted := false, turnComplete := true,
          audioData := none }).1.transcriptions
      = [{ speaker := Speaker.you, text := "hi" }] :=
  ⟨rfl, rfl, rfl⟩

/-- Claim C4 (amended): messages arriving after the session entered
`ended` are still processed — transcript deltas are appended and
turn-complete commits entries — but they can produce no outbound action
at all (no acknowledgement, no audio-node start, nothing), because
teardown nulled the session ref and the master gain and emptied the
live-source set. -/
theorem c4_late_messages (s : AppState) (now : ℚ) (wall : Nat) (now2 : ℚ)
    (m : ServerMessage) (h : s.isEnding = false)
    (hcouple : s.ambientSource = none → s.ambientGain = none) :
    (endCall s now wall).1.callState = CallState.ended ∧
    (onmessage (endCall s now wall).1 now2 m).2 = [] ∧
    (m.turnComplete = false →
      (onmessage (endCall s now wall).1 now2 m).1.currentInput
        = (endCall s now wall).1.currentInput ++ m.inputTranscriptionText.getD "") := by
  obtain ⟨hcs, hmg, hsp, hag, hos⟩ := endCall_post s now wall h hcouple
  exact ⟨hcs, onmessage_inert_acts _ now2 m hmg hsp hag hos,
    fun hTC => onmessage_currentInput_no_turn _ now2 m hTC⟩

/-- Witness for C4 (amended): a late transcription delta after teardown
of an active call produces no outbound action. -/
theorem c4_late_messages_witness :
    (onmessage (endCall activeState 1 4000).1 2
      { inputTranscriptionText := some "x", outputTranscriptionText := none,
        toolCall := none, interrupted := false, turnComplete := false,
        audioData := none }).2 = [] :=
  (c4_late_messages activeState 1 4000 2
    { inputTranscriptionText := some "x", outputTranscriptionText := none,
      toolCall := none, interrupted := false, turnComplete := false,
      audioData := none } rfl (fun _ => rfl)).2.1

/-- Claim C5 counterexample: `play('whisper', loop := true)` DOES retain
the whisper source as the ambient source, marked looping (with its
1-second stop still scheduled) — refuting "whisper is not retained as
the ambient source even if loop=true". -/
theorem c5_counterexample :
    (playSound activeState 1 "whisper" true).1.ambientSource
      = some { sid := 0, loops := true, stopAt := some (1 + 1) } := rfl

/-- Claim C5 (amended): the loop flag changes which source is retained
only for buffer-based names: the five oscillator names always schedule a
stop after 1 s and are never retained (with loop=true they only clear
the existing ambient source); wind and heartbeat honor `loop` (retained
looping with no scheduled stop when true, not retained when false);
whisper always schedules its 1-second stop, but with loop=true it is
nonetheless marked looping and retained as the ambient source. -/
theorem c5_one_shot_behavior (s : AppState) (now : ℚ)
    (hctx : s.outputCtx = true) (hmg : s.masterGain = true) :
    (∀ ty l, ty ∈ oscNames →
      (playSound s now ty l).1.ambientSource
          = (if l then none else s.ambientSource) ∧
      Action.stopOscAt s.nextId (now + 1) ∈ (playSound s now ty l).2) ∧
    (∀ ty, ty = "wind" ∨ ty = "heartbeat" →
      (playSound s now ty true).1.ambientSource
          = some { sid := s.nextId, loops := true, stopAt := none } ∧
      (∀ t, Action.stopSourceAt s.nextId t ∉ (playSound s now ty true).2) ∧
      (playSound s now ty false).1.ambientSource = s.ambientSource) ∧
    (∀ l, Action.stopSourceAt s.nextId (now + 1) ∈ (playSound s now "whisper" l).2) ∧
    (playSound s now "whisper" true).1.ambientSource
        = some { sid := s.nextId, loops := true, stopAt := some (now + 1) } := by
  have hguard : ¬(s.outputCtx = false ∨ s.masterGain = false) := by
    simp [hctx, hmg]
  refine ⟨?_, ?_, ?_, ?_⟩
  · intro ty l hty
    constructor
    · unfold playSound
      rw [if_neg hguard]
      dsimp only
      rw [if_pos hty]
      cases l <;> cases hsa : s.ambientSource <;> simp [hsa]
    · unfold playSound
      rw [if_neg hguard]
      dsimp only
      rw [if_pos hty]
      cases l <;> cases hsa : s.ambientSource <;> simp [hsa]
  · intro ty hty
    have hosc : ty ∉ oscNames := by
      rcases hty with rfl | rfl <;> decide
    have hwh : ¬(ty = "whisper") := by
      rcases hty with rfl | rfl <;> decide
    refine ⟨?_, ?_, playSound_ambientSource_of_not_loop s now ty⟩
    · unfold playSound
      rw [if_neg hguard]
      dsimp only
      rw [if_neg hosc]
      cases hsa : s.ambientSource <;> simp [hsa, hwh]
    · intro t
      unfold playSound
      rw [if_neg hguard]
      dsimp only
      rw [if_neg hosc]
      cases hsa : s.ambientSource <;> simp [hsa, hwh]
  · intro l
    unfold playSound
    rw [if_neg hguard]
    dsimp only
    rw [if_neg (by decide)]
    cases l <;> cases hsa : s.ambientSource <;> simp [hsa]
  · unfold playSound
    rw [if_neg hguard]
    dsimp only
    rw [if_neg (by decide)]
    cases hsa : s.ambientSource <;> simp [hsa]

/-- Witness for C5 (amended): `play('connect', loop := true)` still
schedules the oscillator stop one second later. -/
theorem c5_one_shot_behavior_witness :
    Action.stopOscAt activeState.nextId (1 + 1)
      ∈ (playSound activeState 1 "connect" true).2 :=
  ((c5_one_shot_behavior activeState 1 rfl rfl).1 "connect" true (by decide)).2

/-- Claim C6 counterexample: requesting `play('connect', loop := true)`
while an ambient source is active stops and discards the old ambient
source but retains nothing — afterwards ZERO ambient sources are active,
not exactly one. -/
theorem c6_counterexample :
    ({ activeState with
        ambientSource := some { sid := 5, loops := true, stopAt := none },
        ambientGain := some 6, nextId := 7 } : AppState).ambientSource.isSome = true ∧
    (playSound { activeState with
        ambientSource := some { sid := 5, loops := true, stopAt := none },
        ambientGain := some 6, nextId := 7 } 1 "connect" true).1.ambientSource
      = none :=
  ⟨rfl, rfl⟩

/-- Claim C6 (amended): any `play(name, loop := true)` while an ambient
source is active first stops and discards that old ambient source (it is
never layered); afterwards the new source is the sole retained ambient
source exactly when the name is buffer-based (not one of the five
oscillator names) — for oscillator names no ambient source remains. -/
theorem c6_single_ambient (s : AppState) (now : ℚ) (ty : String)
    (hctx : s.outputCtx = true) (hmg : s.masterGain = true)
    (amb : SourceNode) (hamb : s.ambientSource = some amb) :
    Action.stopSource amb.sid ∈ (playSound s now ty true).2 ∧
    (playSound s now ty true).1.ambientSource
      = (if ty ∈ oscNames then none
         else some { sid := s.nextId, loops := true,
                     stopAt := if ty = "whisper" then some (now + 1) else none }) := by
  have hguard : ¬(s.outputCtx = false ∨ s.masterGain = false) := by
    simp [hctx, hmg]
  unfold playSound
  rw [if_neg hguard]
  dsimp only
  rw [hamb]
  constructor
  · split_ifs <;> simp
  · split_ifs <;> simp_all

/-- Witness for C6 (amended): starting a looping wind while ambient
source 5 is active emits a stop for source 5. -/
theorem c6_single_ambient_witness :
    Action.stopSource 5 ∈ (playSound { activeState with
      ambientSource := some { sid := 5, loops := true, stopAt := none },
      ambientGain := some 6, nextId := 7 } 2 "wind" true).2 :=
  (c6_single_ambient _ 2 "wind" rfl rfl
    { sid := 5, loops := true, stopAt := none } rfl).1

/-- Claim C7: a turn-complete message with input accumulator "hello" and
empty output accumulator commits exactly one entry {You, "hello"} (and
no AI entry) and leaves both partial buffers (and both accumulators)
empty. -/
theorem c7_turn_commit :
    (onmessage { activeState with currentInput := "hello", pInput := "hello" } 1
        { inputTranscriptionText := none, outputTranscriptionText := none,
          toolCall := none, interrupted := false, turnComplete := true,
          audioData := none }).1.transcriptions
      = [{ speaker := Speaker.you, text := "hello" }] ∧
    (onmessage { activeState with currentInput := "hello", pInput := "hello" } 1
        { inputTranscriptionText := none, outputTranscriptionText := none,
          toolCall := none, interrupted := false, turnComplete := true,
          audioData := none }).1.pInput = "" ∧
    (onmessage { activeState with currentInput := "hello", pInput := "hello" } 1
        { inputTranscriptionText := none, outputTranscriptionText := none,
          toolCall := none, interrupted := false, turnComplete := true,
          audioData := none }).1.pOutput = "" ∧
    (onmessage { activeState with currentInput := "hello", pInput := "hello" } 1
        { inputTranscriptionText := none, outputTranscriptionText := none,
          toolCall := none, interrupted := false, turnComplete := true,
          audioData := none }).1.currentInput = "" ∧
    (onmessage { activeState with currentInput := "hello", pInput := "hello" } 1
        { inputTranscriptionText := none, outputTranscriptionText := none,
          toolCall := none, interrupted := false, turnComplete := true,
          audioData := none }).1.currentOutput = "" :=
  ⟨rfl, rfl, rfl, rfl, rfl⟩

/-- Claim C8: a numeric `setAmbianceVolume` argument is applied to the
ambient gain ramp as its clamp into [0, 0.8]: the sole ramp emitted
targets `max 0 (min 0.8 v)`, which is 0 for any input below 0, 0.8 for
any input above 0.8, and the input itself inside the range. -/
theorem c8_volume_clamped (s : AppState) (now : ℚ) (i : String) (v : ℚ)
    (hg : s.ambientGain.isSome = true) (hctx : s.outputCtx = true) :
    ((handleFunctionCall s now
        { id := i, name := "setAmbianceVolume",
          args := { soundName := none, loop := none,
                    volume := some (JVal.num v) } }).2.filter isRamp)
      = [Action.ambientRamp (clampVolume v) (now + 1 / 2)] ∧
    (v < 0 → clampVolume v = 0) ∧
    (4 / 5 < v → clampVolume v = 4 / 5) ∧
    (0 ≤ v → v ≤ 4 / 5 → clampVolume v = v) := by
  refine ⟨hfc_ramp s now _ v rfl rfl hg hctx, ?_, ?_, ?_⟩
  · intro hv
    have h1 : min (4 / 5 : ℚ) v = v := min_eq_right (by linarith)
    rw [clampVolume, h1]
    exact max_eq_left (le_of_lt hv)
  · intro hv
    have h1 : min (4 / 5 : ℚ) v = 4 / 5 := min_eq_left (le_of_lt hv)
    rw [clampVolume, h1]
    exact max_eq_right (by norm_num)
  · intro h1 h2
    rw [clampVolume, min_eq_right h2]
    exact max_eq_right h1

/-- Witness for C8: volume 2 is clamped before being ramped. -/
theorem c8_volume_clamped_witness :
    ((handleFunctionCall { activeState with ambientGain := some 3 } 1
        { id := "10", name := "setAmbianceVolume",
          args := { soundName := none, loop := none,
                    volume := some (JVal.num 2) } }).2.filter isRamp)
      = [Action.ambientRamp (clampVolume 2) (1 + 1 / 2)] :=
  (c8_volume_clamped { activeState with ambientGain := some 3 } 1 "10" 2 rfl rfl).1

/-- Claim C9: when microphone acquisition fails during call start, the
state falls back to `idle` with the cause-specific non-empty error
message, the session ref is never set (the duplex channel is never
opened, since `startCall` returns before `ai.live.connect`), and the
messages for permission-denied, no-device and device-in-use are pairwise
distinct. -/
theorem c9_mic_failure (s : AppState) (e : MicFailure)
    (hs : s.sessionPromise = false) :
    (startCallMicPhase s (MicResult.failure e)).callState = CallState.idle ∧
    (startCallMicPhase s (MicResult.failure e)).micError
      = some (micErrorMessage e) ∧
    micErrorMessage e ≠ "" ∧
    (startCallMicPhase s (MicResult.failure e)).sessionPromise = false ∧
    (micErrorMessage MicFailure.notAllowed ≠ micErrorMessage MicFailure.notFound ∧
      micErrorMessage MicFailure.notAllowed ≠ micErrorMessage MicFailure.notReadable ∧
      micErrorMessage MicFailure.notFound ≠ micErrorMessage MicFailure.notReadable) := by
  refine ⟨rfl, rfl, ?_, hs, by decide⟩
  cases e <;> simp [micErrorMessage]

/-- Witness for C9: a no-device failure from the idle state. -/
theorem c9_mic_failure_witness :
    (startCallMicPhase { activeState with sessionPromise := false }
      (MicResult.failure MicFailure.notFound)).callState = CallState.idle :=
  (c9_mic_failure { activeState with sessionPromise := false }
    MicFailure.notFound rfl).1

/-- Claim C10 (implicit): every output source started while handling an
inbound message — in particular every scheduled audio chunk, whose start
time is the cursor just raised to `max(cursor, currentTime)` — starts at
a time no earlier than the output context's current time at the moment
of scheduling, including the first chunk after an interruption reset the
cursor. -/
theorem c10_no_past_scheduling (s : AppState) (now : ℚ) (m : ServerMessage)
    (sid : Nat) (t : ℚ)
    (h : Action.startSource sid t ∈ (onmessage s now m).2) :
    now ≤ t :=
  onmessage_startSource_ge s now m sid t h

/-- Witness for C10: the chunk scheduled at clock time 3 on a fresh
session starts exactly at 3. -/
theorem c10_no_past_scheduling_witness : (3 : ℚ) ≤ 3 :=
  c10_no_past_scheduling activeState 3
    { inputTranscriptionText := none, outputTranscriptionText := none,
      toolCall := none, interrupted := false, turnComplete := false,
      audioData := some 2 } 0 3 (by decide)

end JokePot
